import Mathlib

/-!
Verification development for the newsletter scraper (src/main.py).
The Python source is shallowly embedded: HTML documents become a `Node`
tree (the BeautifulSoup view), `json.loads` and `html.unescape` are the
external collaborators and are passed in through `ScrapeEnv`, and the two
platform pipelines `_scrape_substack_article` / `_scrape_beehiiv_article`
become `scrape_substack_article` / `scrape_beehiiv_article`, with the
in-place `decompose` mutation modelled by returning the rewritten document.
-/

/-- Whitespace characters recognized by Python str.split and str.strip. -/
def isPySpace (c : Char) : Bool :=
  c == ' ' || c == '\t' || c == '\n' || c == '\r' || c == Char.ofNat 11 || c == Char.ofNat 12

/-- Helper for `splitWS`: accumulates the current token (reversed). -/
def splitWSAux : List Char → List Char → List (List Char)
  | [], acc => if acc.isEmpty then [] else [acc.reverse]
  | c :: rest, acc =>
    if isPySpace c then
      if acc.isEmpty then splitWSAux rest []
      else acc.reverse :: splitWSAux rest []
    else splitWSAux rest (c :: acc)

/-- Python text.split() with no arguments: maximal runs of non-whitespace. -/
def splitWS (s : String) : List String :=
  (splitWSAux s.data []).map (fun l => String.mk l)

/-- Independent count of whitespace-delimited tokens: counts positions that
start a token, threading whether the previous character was whitespace. -/
def tokenStarts : List Char → Bool → Nat
  | [], _ => 0
  | c :: rest, prevSpace =>
    (if !isPySpace c && prevSpace then 1 else 0) + tokenStarts rest (isPySpace c)

/-- Does the pattern occur at the head of the list? -/
def startsWithL : List Char → List Char → Bool
  | [], _ => true
  | _ :: _, [] => false
  | p :: ps, h :: hs => p == h && startsWithL ps hs

/-- Does the pattern occur anywhere in the list? -/
def hasSubL (pat : List Char) : List Char → Bool
  | [] => pat.isEmpty
  | h :: hs => startsWithL pat (h :: hs) || hasSubL pat hs

/-- Python `needle in haystack` on strings. -/
def pyIn (needle hay : String) : Bool := hasSubL needle.data hay.data

/-- Python s.split("T")[0]: the portion strictly before the first "T". -/
def beforeT (s : String) : String := String.mk (s.data.takeWhile (fun c => c != 'T'))

/-- Does the string contain the character "T"? -/
def hasT (s : String) : Bool := s.data.any (fun c => c == 'T')

/-- Python s.replace("\n", " "). -/
def stripNL (s : String) : String :=
  String.mk (s.data.map (fun c => if c == '\n' then ' ' else c))

/-- Python "\n\n".join(blocks). -/
def joinNN : List String → String
  | [] => ""
  | [b] => b
  | b :: rest => b ++ "\n\n" ++ joinNN rest

/-- Every maximal run of newline characters has length exactly two. -/
def pairedNL : List Char → Bool
  | [] => true
  | c :: rest =>
    if c == '\n' then
      match rest with
      | [] => false
      | c2 :: rest2 =>
        if c2 == '\n' then
          match rest2 with
          | [] => true
          | c3 :: _ => if c3 == '\n' then false else pairedNL rest2
        else false
    else pairedNL rest

/-- Python text.count("\n\n"): non-overlapping occurrences, left to right. -/
def countNN : List Char → Nat
  | '\n' :: '\n' :: rest => countNN rest + 1
  | _ :: rest => countNN rest
  | [] => 0

/-- Python round(w / 200) for a natural w: round half to even
(w / 200 is exactly representable at every half-integer, so the float
round agrees with the exact rational round). -/
def pyRound200 (w : Nat) : Nat :=
  if w % 200 < 100 then w / 200
  else if 100 < w % 200 then w / 200 + 1
  else if w / 200 % 2 == 0 then w / 200 else w / 200 + 1

/-- Python s.strip() on a character list. -/
def pyStripL (l : List Char) : List Char :=
  ((l.dropWhile isPySpace).reverse.dropWhile isPySpace).reverse

/-- Python s.strip(). -/
def pyStrip (s : String) : String := String.mk (pyStripL s.data)

/-- Helper for `splitComma`. -/
def splitCommaAux : List Char → List Char → List (List Char)
  | [], acc => [acc.reverse]
  | c :: rest, acc =>
    if c == ',' then acc.reverse :: splitCommaAux rest []
    else splitCommaAux rest (c :: acc)

/-- Python s.split(","). -/
def splitComma (s : String) : List String := (splitCommaAux s.data []).map String.mk

/-- Python s[:10000] (slicing is by code points). -/
def pyTake (n : Nat) (s : String) : String := String.mk (s.data.take n)

/-- Semi-structured values produced by the external json.loads collaborator. -/
inductive Json where
  | null : Json
  | str : String → Json
  | arr : List Json → Json
  | obj : List (String × Json) → Json

mutual
/-- Boolean equality on parsed JSON values. -/
def jsonBEq : Json → Json → Bool
  | .null, .null => true
  | .str a, .str b => a == b
  | .arr a, .arr b => jsonListBEq a b
  | .obj a, .obj b => jsonFieldsBEq a b
  | _, _ => false

/-- Boolean equality on lists of parsed JSON values. -/
def jsonListBEq : List Json → List Json → Bool
  | [], [] => true
  | a :: ra, b :: rb => jsonBEq a b && jsonListBEq ra rb
  | _, _ => false

/-- Boolean equality on field lists of parsed JSON objects. -/
def jsonFieldsBEq : List (String × Json) → List (String × Json) → Bool
  | [], [] => true
  | (k1, v1) :: r1, (k2, v2) :: r2 => k1 == k2 && jsonBEq v1 v2 && jsonFieldsBEq r1 r2
  | _, _ => false
end

mutual
/-- Soundness of `jsonBEq`. -/
def jsonBEq_eq : (a b : Json) → jsonBEq a b = true → a = b
  | .null, .null, _ => rfl
  | .str _, .str _, h => congrArg Json.str (eq_of_beq h)
  | .arr a, .arr b, h => congrArg Json.arr (jsonListBEq_eq a b h)
  | .obj a, .obj b, h => congrArg Json.obj (jsonFieldsBEq_eq a b h)
  | .null, .str _, h => Bool.noConfusion h
  | .null, .arr _, h => Bool.noConfusion h
  | .null, .obj _, h => Bool.noConfusion h
  | .str _, .null, h => Bool.noConfusion h
  | .str _, .arr _, h => Bool.noConfusion h
  | .str _, .obj _, h => Bool.noConfusion h
  | .arr _, .null, h => Bool.noConfusion h
  | .arr _, .str _, h => Bool.noConfusion h
  | .arr _, .obj _, h => Bool.noConfusion h
  | .obj _, .null, h => Bool.noConfusion h
  | .obj _, .str _, h => Bool.noConfusion h
  | .obj _, .arr _, h => Bool.noConfusion h

/-- Soundness of `jsonListBEq`. -/
def jsonListBEq_eq : (a b : List Json) → jsonListBEq a b = true → a = b
  | [], [], _ => rfl
  | a :: ra, b :: rb, h => by
    have h2 := Bool.and_eq_true_iff.mp h
    exact congrArg₂ List.cons (jsonBEq_eq a b h2.1) (jsonListBEq_eq ra rb h2.2)
  | [], _ :: _, h => Bool.noConfusion h
  | _ :: _, [], h => Bool.noConfusion h

/-- Soundness of `jsonFieldsBEq`. -/
def jsonFieldsBEq_eq : (a b : List (String × Json)) → jsonFieldsBEq a b = true → a = b
  | [], [], _ => rfl
  | (k1, v1) :: r1, (k2, v2) :: r2, h => by
    have h2 := Bool.and_eq_true_iff.mp h
    have h3 := Bool.and_eq_true_iff.mp h2.1
    have hk : k1 = k2 := eq_of_beq h3.1
    have hv : v1 = v2 := jsonBEq_eq v1 v2 h3.2
    have hr : r1 = r2 := jsonFieldsBEq_eq r1 r2 h2.2
    rw [hk, hv, hr]
  | [], _ :: _, h => Bool.noConfusion h
  | _ :: _, [], h => Bool.noConfusion h
end

mutual
/-- Reflexivity of `jsonBEq`. -/
def jsonBEq_rfl : (a : Json) → jsonBEq a a = true
  | .null => rfl
  | .str a => beq_self_eq_true a
  | .arr a => jsonListBEq_rfl a
  | .obj a => jsonFieldsBEq_rfl a

/-- Reflexivity of `jsonListBEq`. -/
def jsonListBEq_rfl : (a : List Json) → jsonListBEq a a = true
  | [] => rfl
  | a :: ra => by
    have h1 := jsonBEq_rfl a
    have h2 := jsonListBEq_rfl ra
    simp [jsonListBEq, h1, h2]

/-- Reflexivity of `jsonFieldsBEq`. -/
def jsonFieldsBEq_rfl : (a : List (String × Json)) → jsonFieldsBEq a a = true
  | [] => rfl
  | (k, v) :: r => by
    have h1 := jsonBEq_rfl v
    have h2 := jsonFieldsBEq_rfl r
    simp [jsonFieldsBEq, h1, h2]
end

instance : DecidableEq Json := fun a b =>
  if h : jsonBEq a b = true then isTrue (jsonBEq_eq a b h)
  else isFalse (fun he => h (he ▸ jsonBEq_rfl a))

/-- Python truthiness of a parsed JSON value. -/
def pyTruthy : Json → Bool
  | .null => false
  | .str s => !s.isEmpty
  | .arr l => !l.isEmpty
  | .obj l => !l.isEmpty

/-- First binding of a key in a parsed JSON object. -/
def objLookup (fields : List (String × Json)) (k : String) : Option Json :=
  match fields.find? (fun kv => kv.1 == k) with
  | some kv => some kv.2
  | none => none

/-- Python value.get(key, default): raises AttributeError unless value is a dict. -/
def pyGetD : Json → String → Json → Except String Json
  | .obj fields, k, dflt => .ok ((objLookup fields k).getD dflt)
  | _, _, _ => .error "AttributeError: object has no attribute get"

/-- Python `key in value` for a parsed JSON value. -/
def pyContainsKey : Json → String → Except String Bool
  | .obj fields, k => .ok (fields.any (fun kv => kv.1 == k))
  | .arr l, k => .ok (l.contains (Json.str k))
  | .str s, k => .ok (pyIn k s)
  | .null, _ => .error "TypeError: argument of type NoneType is not iterable"

/-- Python value[key] for a string key. -/
def pyIndexKey : Json → String → Except String Json
  | .obj fields, k =>
    match objLookup fields k with
    | some v => .ok v
    | none => .error "KeyError"
  | .arr _, _ => .error "TypeError: list indices must be integers"
  | .str _, _ => .error "TypeError: string indices must be integers"
  | .null, _ => .error "TypeError: NoneType object is not subscriptable"

/-- Python iteration over a parsed JSON value (a dict iterates its keys,
a string iterates its characters). -/
def pyIter : Json → Except String (List Json)
  | .arr l => .ok l
  | .obj fields => .ok (fields.map (fun kv => Json.str kv.1))
  | .str s => .ok (s.data.map (fun c => Json.str (String.mk [c])))
  | .null => .error "TypeError: NoneType object is not iterable"

/-- Is the value a JSON array (Python isinstance(x, list))? -/
def isJsonArr : Json → Bool
  | .arr _ => true
  | _ => false

mutual
/-- Python repr() of a parsed JSON value (string escaping elided). -/
def pyRepr : Json → String
  | .null => "None"
  | .str s => "\x27" ++ s ++ "\x27"
  | .arr l => "[" ++ pyReprList l ++ "]"
  | .obj fs => "\x7b" ++ pyReprFields fs ++ "\x7d"

/-- Comma-separated reprs of the elements of a list. -/
def pyReprList : List Json → String
  | [] => ""
  | [j] => pyRepr j
  | j :: rest => pyRepr j ++ ", " ++ pyReprList rest

/-- Comma-separated reprs of the fields of a dict. -/
def pyReprFields : List (String × Json) → String
  | [] => ""
  | [(k, v)] => "\x27" ++ k ++ "\x27: " ++ pyRepr v
  | (k, v) :: rest => "\x27" ++ k ++ "\x27: " ++ pyRepr v ++ ", " ++ pyReprFields rest
end

/-- Python str() of a parsed JSON value, as used in f-string interpolation. -/
def pyStr : Json → String
  | .str s => s
  | j => pyRepr j

/-- A parsed HTML document node (the BeautifulSoup tree view). -/
inductive Node where
  | elem : String → List (String × String) → List Node → Node
  | text : String → Node

mutual
/-- Boolean equality on document nodes. -/
def nodeBEq : Node → Node → Bool
  | .text a, .text b => a == b
  | .elem t1 a1 c1, .elem t2 a2 c2 => t1 == t2 && a1 == a2 && nodeListBEq c1 c2
  | _, _ => false

/-- Boolean equality on lists of document nodes. -/
def nodeListBEq : List Node → List Node → Bool
  | [], [] => true
  | a :: ra, b :: rb => nodeBEq a b && nodeListBEq ra rb
  | _, _ => false
end

mutual
/-- Soundness of `nodeBEq`. -/
def nodeBEq_eq : (a b : Node) → nodeBEq a b = true → a = b
  | .text a, .text b, h => congrArg Node.text (eq_of_beq h)
  | .elem t1 a1 c1, .elem t2 a2 c2, h => by
    have h2 := Bool.and_eq_true_iff.mp h
    have h3 := Bool.and_eq_true_iff.mp h2.1
    have ht : t1 = t2 := eq_of_beq h3.1
    have ha : a1 = a2 := eq_of_beq h3.2
    have hc : c1 = c2 := nodeListBEq_eq c1 c2 h2.2
    rw [ht, ha, hc]
  | .text _, .elem _ _ _, h => Bool.noConfusion h
  | .elem _ _ _, .text _, h => Bool.noConfusion h

/-- Soundness of `nodeListBEq`. -/
def nodeListBEq_eq : (a b : List Node) → nodeListBEq a b = true → a = b
  | [], [], _ => rfl
  | a :: ra, b :: rb, h => by
    have h2 := Bool.and_eq_true_iff.mp h
    exact congrArg₂ List.cons (nodeBEq_eq a b h2.1) (nodeListBEq_eq ra rb h2.2)
  | [], _ :: _, h => Bool.noConfusion h
  | _ :: _, [], h => Bool.noConfusion h
end

mutual
/-- Reflexivity of `nodeBEq`. -/
def nodeBEq_rfl : (a : Node) → nodeBEq a a = true
  | .text a => beq_self_eq_true a
  | .elem t a c => by
    have h1 := nodeListBEq_rfl c
    simp [nodeBEq, h1]

/-- Reflexivity of `nodeListBEq`. -/
def nodeListBEq_rfl : (a : List Node) → nodeListBEq a a = true
  | [] => rfl
  | a :: ra => by
    have h1 := nodeBEq_rfl a
    have h2 := nodeListBEq_rfl ra
    simp [nodeListBEq, h1, h2]
end

instance : DecidableEq Node := fun a b =>
  if h : nodeBEq a b = true then isTrue (nodeBEq_eq a b h)
  else isFalse (fun he => h (he ▸ nodeBEq_rfl a))

/-- The value of an attribute on an element (first binding wins). -/
def getAttr : Node → String → Option String
  | .elem _ attrs _, k =>
    match attrs.find? (fun kv => kv.1 == k) with
    | some kv => some kv.2
    | none => none
  | .text _, _ => none

mutual
/-- bs4 get_text(strip=True): each descendant string stripped, concatenated. -/
def textStrip : Node → String
  | .text s => pyStrip s
  | .elem _ _ cs => textStripList cs

/-- Concatenation of `textStrip` over a list of nodes. -/
def textStripList : List Node → String
  | [] => ""
  | c :: cs => textStrip c ++ textStripList cs
end

/-- bs4 .string: the descendant string reached through unique children,
None when the element does not have exactly one child chain to a string. -/
def nodeString : Node → Option String
  | .text s => some s
  | .elem _ _ [c] => nodeString c
  | .elem _ _ _ => none

/-- One compound CSS selector: tag alternatives (empty list means any tag),
required classes, exact attribute values, and substring attribute values. -/
structure SimpleSel where
  tags : List String
  classes : List String
  attrsEq : List (String × String)
  attrsSub : List (String × String)
deriving DecidableEq

/-- The whitespace-separated class tokens of an element. -/
def classTokens (n : Node) : List String :=
  match getAttr n "class" with
  | some v => splitWS v
  | none => []

/-- Does a node match one compound selector? -/
def matchesSimple (s : SimpleSel) (n : Node) : Bool :=
  match n with
  | .text _ => false
  | .elem t _ _ =>
    (s.tags.isEmpty || s.tags.contains t) &&
    s.classes.all (fun c => (classTokens n).contains c) &&
    s.attrsEq.all (fun kv => getAttr n kv.1 == some kv.2) &&
    s.attrsSub.all (fun kv =>
      match getAttr n kv.1 with
      | some w => pyIn kv.2 w
      | none => false)

/-- A CSS selector: a descendant chain of compound selectors. -/
inductive Sel where
  | last : SimpleSel → Sel
  | desc : SimpleSel → Sel → Sel

/-- Match a selector against a node given its ancestor chain, outermost
ancestor first (greedy matching of the descendant chain). -/
def selMatch : Sel → List Node → Node → Bool
  | .last s, _, n => matchesSimple s n
  | .desc _ _, [], _ => false
  | .desc s rest, a :: anc2, n =>
    if matchesSimple s a then selMatch rest anc2 n else selMatch (.desc s rest) anc2 n

mutual
/-- Selector matches in the subtree rooted at a node (the node included),
in document order, given the ancestor chain of the node. -/
def selectNode (sel : Sel) (anc : List Node) (n : Node) : List Node :=
  match n with
  | .text _ => []
  | .elem _ _ cs =>
    (if selMatch sel anc n then [n] else []) ++ selectList sel (anc ++ [n]) cs

/-- Selector matches across a list of sibling subtrees, in document order. -/
def selectList (sel : Sel) (anc : List Node) : List Node → List Node
  | [] => []
  | c :: cs => selectNode sel anc c ++ selectList sel anc cs
end

/-- bs4 select: matches among strict descendants of the root, document order. -/
def select (root : Node) (sel : Sel) : List Node :=
  match root with
  | .elem _ _ cs => selectList sel [root] cs
  | .text _ => []

/-- bs4 select_one: the first match in document order. -/
def selectOne (root : Node) (sel : Sel) : Option Node := (select root sel).head?

mutual
/-- bs4 find with a predicate: first strict descendant matching, preorder. -/
def findFirstN (p : Node → Bool) : Node → Option Node
  | .text _ => none
  | .elem _ _ cs => findFirstL p cs

/-- First match in a list of sibling subtrees, preorder. -/
def findFirstL (p : Node → Bool) : List Node → Option Node
  | [] => none
  | c :: cs =>
    if p c then some c
    else
      match findFirstN p c with
      | some r => some r
      | none => findFirstL p cs
end

mutual
/-- Remove every descendant matching the selector (bs4 decompose of all
select results; a removed subtree is dropped whole). -/
def removeMatchingN (s : SimpleSel) : Node → Node
  | .text x => .text x
  | .elem t a cs => .elem t a (removeMatchingL s cs)

/-- Removal across a list of sibling subtrees. -/
def removeMatchingL (s : SimpleSel) : List Node → List Node
  | [] => []
  | c :: cs =>
    if matchesSimple s c then removeMatchingL s cs
    else removeMatchingN s c :: removeMatchingL s cs
end

mutual
/-- Replace the first strict descendant matching the predicate (preorder)
by its image under f; the boolean records whether a replacement happened. -/
def rwNode (p : Node → Bool) (f : Node → Node) : Node → Node × Bool
  | .text s => (.text s, false)
  | .elem t a cs =>
    let r := rwList p f cs
    (.elem t a r.1, r.2)

/-- Replacement across a list of sibling subtrees. -/
def rwList (p : Node → Bool) (f : Node → Node) : List Node → List Node × Bool
  | [] => ([], false)
  | c :: cs =>
    if p c then (f c :: cs, true)
    else
      let r := rwNode p f c
      if r.2 then (r.1 :: cs, true)
      else
        let r2 := rwList p f cs
        (c :: r2.1, r2.2)
end

/-- Is the node an element with the given tag? -/
def isTagName (t : String) (n : Node) : Bool :=
  match n with
  | .elem tg _ _ => tg == t
  | .text _ => false

/-- Does the node carry the given exact attribute value? -/
def attrIs (n : Node) (k v : String) : Bool := getAttr n k == some v

/-- Predicate for soup.find("script", type "application/ld+json"). -/
def scriptLdPred (n : Node) : Bool := isTagName "script" n && attrIs n "type" "application/ld+json"

/-- Predicate for soup.find("meta", attrs name=nm). -/
def metaNamePred (nm : String) (n : Node) : Bool := isTagName "meta" n && attrIs n "name" nm

/-- Predicate for soup.find("meta", property=nm). -/
def metaPropPred (nm : String) (n : Node) : Bool := isTagName "meta" n && attrIs n "property" nm

/-- Predicate for soup.find("link", rel="canonical"); rel is a multi-valued
attribute in bs4, so any whitespace-separated token may match. -/
def linkCanonicalPred (n : Node) : Bool :=
  isTagName "link" n &&
    (match getAttr n "rel" with
     | some v => (splitWS v).contains "canonical" || v == "canonical"
     | none => false)

/-- The first element matching p whose given attribute is present and
nonempty (the Python pattern `tag = soup.find(...)` then
`if tag and tag.get(attrName):`). -/
def foundAttrContent (soup : Node) (p : Node → Bool) (attrName : String) : Option String :=
  match findFirstN p soup with
  | some tag =>
    match getAttr tag attrName with
    | some c => if c == "" then none else some c
    | none => none
  | none => none

/-- Derived reading statistics. -/
structure Stats where
  word_count : Nat
  paragraph_count : Nat
  reading_time_minutes : Nat
deriving DecidableEq

/-- src/main.py compute_stats. -/
def compute_stats (text : String) : Stats :=
  let wc := (splitWS text).length
  ⟨wc, countNN text.data, max 1 (pyRound200 wc)⟩

/-- Derived metadata (canonical URL, tags, category). -/
structure ExtraMeta where
  canonical_url : Option String
  tags : List String
  newsletter_category : Option String
deriving DecidableEq

/-- src/main.py extract_extra_metadata. -/
def extract_extra_metadata (soup : Node) : ExtraMeta :=
  let tags :=
    match foundAttrContent soup (metaNamePred "keywords") "content" with
    | some c => (splitComma c).filterMap (fun t => if pyStrip t == "" then none else some (pyStrip t))
    | none => []
  let canonical :=
    match foundAttrContent soup linkCanonicalPred "href" with
    | some h => some h
    | none => foundAttrContent soup (metaPropPred "og:url") "content"
  let category :=
    match foundAttrContent soup (metaNamePred "category") "content" with
    | some c => some c
    | none => tags.head?
  ⟨canonical, tags, category⟩

/-- The five generated prompt strings. -/
structure Prompts where
  summarization : String
  tweet_thread : String
  reply_comment : String
  idea_extraction : String
  quotes : String
deriving DecidableEq

/-- External collaborators of the core: json.loads, html.unescape and the
summarization service, supplied by the caller. -/
structure ScrapeEnv where
  jsonLoads : String → Except String Json
  unescape : String → String
  summarizeExt : String → String

/-- src/main.py generate_prompt_templates (html.unescape is external). -/
def generate_prompt_templates (env : ScrapeEnv) (title : Json) (full_text : String) : Prompts :=
  let t := pyStr title
  let ft := env.unescape (pyTake 10000 full_text)
  ⟨"Summarize the following newsletter titled \x27" ++ t ++ "\x27:\n\n" ++ ft,
   "Write a 5–7 tweet thread summarizing the newsletter \x27" ++ t ++ "\x27:\n\n" ++ ft,
   "Write a friendly, thoughtful comment to leave on this newsletter:\n\n" ++ ft,
   "Extract 5 content/post ideas from this newsletter:\n\n" ++ ft,
   "Extract 5 impactful or shareable quotes from the newsletter titled \x27" ++ t ++ "\x27:\n\n" ++ ft⟩

/-- The ArticleRecord produced by one extraction.  Metadata fields that the
Python code can assign arbitrary parsed-JSON values keep type `Json`
(Python is dynamically typed there); None is `Json.null`. -/
structure Record where
  publication_name : Json
  article_title : Json
  article_subtitle : Option String
  author : Json
  publication_date : Json
  full_text : String
  stats : Stats
  extra : ExtraMeta
  prompt_templates : Prompts
deriving DecidableEq

/-- Default author sentinel. -/
def authorDefault : Json := Json.str "Author not found"

/-- Default publication sentinel (Substack). -/
def pubDefault : Json := Json.str "Publication not found"

/-- Selector div.pencraft-card-meta-row a.pencraft-card-meta-row-owner-name. -/
def bylineSel : Sel :=
  .desc ⟨["div"], ["pencraft-card-meta-row"], [], []⟩
    (.last ⟨["a"], ["pencraft-card-meta-row-owner-name"], [], []⟩)

/-- Selector div.pencraft-card-meta-row a.pencraft-card-meta-row-publication-name. -/
def pubNameSel : Sel :=
  .desc ⟨["div"], ["pencraft-card-meta-row"], [], []⟩
    (.last ⟨["a"], ["pencraft-card-meta-row-publication-name"], [], []⟩)

/-- Selector div[aria-label="Post UFI"] div.color-pub-secondary-text-hGQ02T. -/
def dateFooterSel : Sel :=
  .desc ⟨["div"], [], [("aria-label", "Post UFI")], []⟩
    (.last ⟨["div"], ["color-pub-secondary-text-hGQ02T"], [], []⟩)

/-- Selector h1.post-title. -/
def titleSel : Sel := Sel.last ⟨["h1"], ["post-title"], [], []⟩

/-- Selector h3.subtitle. -/
def subtitleSel : Sel := Sel.last ⟨["h3"], ["subtitle"], [], []⟩

/-- Predicate for the Substack body container selector div.body.markup. -/
def substackBodyPred (n : Node) : Bool := matchesSimple ⟨["div"], ["body", "markup"], [], []⟩ n

/-- Group selector "p, h3, li" (document-order union). -/
def substackTextSel : Sel := Sel.last ⟨["p", "h3", "li"], [], [], []⟩

/-- The clutter denylist of _scrape_substack_article, in source order. -/
def clutterSels : List SimpleSel :=
  [⟨["div"], ["subscription-widget-wrap"], [], []⟩,
   ⟨["div"], ["captioned-image-container"], [], []⟩,
   ⟨["div"], ["community-chat"], [], []⟩,
   ⟨["p"], ["button-wrapper"], [], []⟩,
   ⟨["div"], ["pullquote"], [], []⟩,
   ⟨["hr"], [], [], []⟩,
   ⟨[], ["instagram"], [], []⟩,
   ⟨[], ["like-button-container"], [], []⟩,
   ⟨[], ["post-ufi-comment-button"], [], []⟩]

/-- Sequential clutter removal inside the body container (lines 150-156). -/
def scrubBody (body : Node) : Node :=
  clutterSels.foldl (fun b s => removeMatchingN s b) body

/-- Lines 107-112: field mutation performed on a matching NewsArticle node.
A Python exception at any step leaves the fields assigned so far in place
(the surrounding `except Exception: pass` swallows it). -/
def ldItemFields (item : Json) (a p d : Json) : Json × Json × Json :=
  match pyGetD item "author" (Json.obj []) with
  | .error _ => (a, p, d)
  | .ok au =>
    match pyGetD au "name" a with
    | .error _ => (a, p, d)
    | .ok a2 =>
      match pyGetD item "publisher" (Json.obj []) with
      | .error _ => (a2, p, d)
      | .ok pb =>
        match pyGetD pb "name" p with
        | .error _ => (a2, p, d)
        | .ok p2 =>
          match pyGetD item "datePublished" d with
          | .error _ => (a2, p2, d)
          | .ok d2 =>
            if pyTruthy d2 then
              match d2 with
              | .str s => (a2, p2, Json.str (beforeT s))
              | _ => (a2, p2, d2)
            else (a2, p2, d2)

/-- Lines 105-112: scan the @graph entries for the first NewsArticle node;
an exception while inspecting an entry aborts the block with the state
accumulated so far. -/
def substackLdLoop (a p d : Json) : List Json → Json × Json × Json
  | [] => (a, p, d)
  | item :: rest =>
    match pyGetD item "@type" Json.null with
    | .error _ => (a, p, d)
    | .ok ty =>
      if ty == Json.str "NewsArticle" then ldItemFields item a p d
      else substackLdLoop a p d rest

/-- Lines 99-114: the Substack structured-data block.  Every internal
failure (missing script text, malformed JSON, bad navigation) is swallowed
by the inner `except Exception: pass`, keeping partial assignments. -/
def substackLd (env : ScrapeEnv) (soup : Node) : Json × Json × Json :=
  let dflt := (authorDefault, pubDefault, Json.null)
  match findFirstN scriptLdPred soup with
  | none => dflt
  | some tag =>
    match nodeString tag with
    | none => dflt
    | some s =>
      match env.jsonLoads s with
      | .error _ => dflt
      | .ok jd =>
        match pyContainsKey jd "@graph" with
        | .error _ => dflt
        | .ok false => dflt
        | .ok true =>
          match pyIndexKey jd "@graph" with
          | .error _ => dflt
          | .ok graph =>
            match pyIter graph with
            | .error _ => dflt
            | .ok items => substackLdLoop authorDefault pubDefault Json.null items

/-- Lines 99-139: full Substack metadata resolution
(author, publication, publication_date). -/
def substackMetaTriple (env : ScrapeEnv) (soup : Node) : Json × Json × Json :=
  let t := substackLd env soup
  let a1 := t.1
  let p1 := t.2.1
  let d1 := t.2.2
  let a2 := if a1 == authorDefault then
      (match foundAttrContent soup (metaNamePred "author") "content" with
       | some c => Json.str (pyStrip c)
       | none => a1)
    else a1
  let p2 := if p1 == pubDefault then
      (match foundAttrContent soup (metaPropPred "og:site_name") "content" with
       | some c => Json.str (pyStrip c)
       | none => p1)
    else p1
  let d2 := if pyTruthy d1 then d1 else
      (match foundAttrContent soup (metaPropPred "article:published_time") "content" with
       | some c => Json.str (beforeT c)
       | none => d1)
  let a3 := match selectOne soup bylineSel with
    | some el => Json.str (textStrip el)
    | none => a2
  let p3 := match selectOne soup pubNameSel with
    | some el => Json.str (textStrip el)
    | none => p2
  let d3 := match selectOne soup dateFooterSel with
    | some el => Json.str (textStrip el)
    | none => d2
  (a3, p3, d3)

/-- The wrapper message prefix both platform functions use (the Substack
function also says "Beehiiv": a copy-paste in the source). -/
def parseErrPre : String := "Failed to parse Beehiiv article. Error: "

/-- The text blocks surviving cleaning: elements matched by the group
selector whose stripped text is nonempty, internal newlines spaced. -/
def cleanBlocks (container : Node) (sel : Sel) : List String :=
  ((select container sel).filter (fun el => textStrip el != "")).map
    (fun el => stripNL (textStrip el))

/-- src/main.py _scrape_substack_article.  Returns the record together with
the post-call document (decompose mutates the caller's soup in place). -/
def scrape_substack_article (env : ScrapeEnv) (soup : Node) : Except String (Record × Node) :=
  let m := substackMetaTriple env soup
  let title := match selectOne soup titleSel with
    | some el => textStrip el
    | none => "Title not found"
  let subtitle := (selectOne soup subtitleSel).map textStrip
  match findFirstN substackBodyPred soup with
  | none => .error (parseErrPre ++ "Main content body not found.")
  | some body =>
    let cleaned := scrubBody body
    let soup2 := (rwNode substackBodyPred scrubBody soup).1
    let fullText := joinNN (cleanBlocks cleaned substackTextSel)
    .ok (⟨m.2.1, Json.str title, subtitle, m.1, m.2.2, fullText,
      compute_stats fullText, extract_extra_metadata soup2,
      generate_prompt_templates env (Json.str title) fullText⟩, soup2)

/-- Predicate for the Beehiiv body container selector div.prose. -/
def beehiivBodyPred (n : Node) : Bool := matchesSimple ⟨["div"], ["prose"], [], []⟩ n

/-- Group selector "p, h1, h2, h3, li". -/
def beehiivTextSel : Sel := Sel.last ⟨["p", "h1", "h2", "h3", "li"], [], [], []⟩

/-- Selector h1. -/
def h1Sel : Sel := Sel.last ⟨["h1"], [], [], []⟩

/-- Selector a[href*="/authors/"]. -/
def authorLinkSel : Sel := Sel.last ⟨["a"], [], [], [("href", "/authors/")]⟩

/-- Lines 180-189: the Beehiiv structured-data block.  There is no internal
exception handler here, so any failure propagates.  Result order:
(title, author, publication, publication_date). -/
def beehiivLd (env : ScrapeEnv) (soup : Node) : Except String (Json × Json × Json × Json) :=
  match findFirstN scriptLdPred soup with
  | none => .ok (Json.str "Title not found", authorDefault, Json.str "beehiiv", Json.null)
  | some tag =>
    match nodeString tag with
    | none => .error "TypeError: the JSON object must be str, not NoneType"
    | some s =>
      match env.jsonLoads s with
      | .error e => .error e
      | .ok jd =>
        match pyGetD jd "headline" (Json.str "Title not found") with
        | .error e => .error e
        | .ok t =>
          match pyGetD jd "author" Json.null with
          | .error e => .error e
          | .ok au =>
            match (if pyTruthy au && isJsonArr au then
                     match au with
                     | .arr (x :: _) => pyGetD x "name" authorDefault
                     | _ => .ok authorDefault
                   else .ok authorDefault) with
            | .error e => .error e
            | .ok a =>
              match pyGetD jd "publisher" (Json.obj []) with
              | .error e => .error e
              | .ok pb =>
                match pyGetD pb "name" (Json.str "beehiiv") with
                | .error e => .error e
                | .ok p =>
                  match pyGetD jd "datePublished" Json.null with
                  | .error e => .error e
                  | .ok d0 =>
                    if pyTruthy d0 then
                      match d0 with
                      | .str ds => .ok (t, a, p, Json.str (beforeT ds))
                      | _ => .error "AttributeError: object has no attribute split"
                    else .ok (t, a, p, d0)

/-- Lines 178-216: the body of _scrape_beehiiv_article before the outer
exception wrapper. -/
def beehiivInner (env : ScrapeEnv) (soup : Node) : Except String Record :=
  match beehiivLd env soup with
  | .error e => .error e
  | .ok q =>
    let t := match selectOne soup h1Sel with
      | some el => Json.str (textStrip el)
      | none => q.1
    let a := match selectOne soup authorLinkSel with
      | some el => Json.str (textStrip el)
      | none => q.2.1
    match findFirstN beehiivBodyPred soup with
    | none => .error "Main content body (`div.prose`) not found."
    | some body =>
      let fullText := joinNN (cleanBlocks body beehiivTextSel)
      .ok ⟨q.2.2.1, t, none, a, q.2.2.2, fullText, compute_stats fullText,
        extract_extra_metadata soup, generate_prompt_templates env t fullText⟩

/-- src/main.py _scrape_beehiiv_article. -/
def scrape_beehiiv_article (env : ScrapeEnv) (soup : Node) : Except String Record :=
  match beehiivInner env soup with
  | .ok r => .ok r
  | .error e => .error (parseErrPre ++ e)

/-- The two supported platforms. -/
inductive Platform where
  | substack
  | beehiiv
deriving DecidableEq

/-- ExtractArticle: platform dispatch; the returned node is the document
state after the call (Substack mutates it, Beehiiv does not). -/
def extractArticle (env : ScrapeEnv) : Platform → Node → Except String (Record × Node)
  | .substack, soup => scrape_substack_article env soup
  | .beehiiv, soup =>
    match scrape_beehiiv_article env soup with
    | .ok r => .ok (r, soup)
    | .error e => .error e

/-- The suffix of the list after the first occurrence of the pattern. -/
def afterSubL (pat : List Char) : List Char → Option (List Char)
  | [] => none
  | h :: t =>
    if startsWithL pat (h :: t) then some ((h :: t).drop pat.length)
    else afterSubL pat t

/-- Modeled from urllib.parse.urlparse: the network-location part of a URL
(the text after "//" up to the next "/", "?" or "#"; empty otherwise). -/
def netloc (url : String) : String :=
  match afterSubL "://".data url.data with
  | some rest => String.mk (rest.takeWhile (fun c => c != '/' && c != '?' && c != '#'))
  | none =>
    if startsWithL "//".data url.data then
      String.mk ((url.data.drop 2).takeWhile (fun c => c != '/' && c != '?' && c != '#'))
    else ""

/-- One batch item: its URL and the outcome of the external fetch
(requests.get + BeautifulSoup, owned by the caller per the spec). -/
structure BatchItem where
  url : String
  fetch : Except String Node

/-- One entry of the batch results list: either article_url plus error
string only, or article_url plus the full record (and optional summary). -/
inductive BatchEntry where
  | failure : String → String → BatchEntry
  | success : String → Record → Option String → BatchEntry
deriving DecidableEq

/-- Lines 251-269: the body of the batch loop for one URL.  Any exception
(fetch, routing, extraction) is caught and becomes an error entry. -/
def processItem (env : ScrapeEnv) (summarize : Bool) (it : BatchItem) : BatchEntry :=
  match it.fetch with
  | .error e => .failure it.url e
  | .ok soup =>
    let domain := netloc it.url
    let plat : Except String Platform :=
      if pyIn "substack.com" domain then .ok .substack
      else if pyIn "beehiiv.com" domain then .ok .beehiiv
      else .error "Unsupported platform."
    match plat with
    | .error e => .failure it.url e
    | .ok p =>
      match extractArticle env p soup with
      | .error e => .failure it.url e
      | .ok rd =>
        let summ := if summarize then some (env.summarizeExt rd.1.full_text) else none
        .success it.url rd.1 summ

/-- The accumulating loop of batch_article_scrape (results.append). -/
def batchLoop (env : ScrapeEnv) (summarize : Bool) : List BatchItem → List BatchEntry → List BatchEntry
  | [], acc => acc
  | it :: rest, acc => batchLoop env summarize rest (acc ++ [processItem env summarize it])

/-- src/main.py batch_article_scrape: the results list. -/
def batch_article_scrape (env : ScrapeEnv) (summarize : Bool) (items : List BatchItem) : List BatchEntry :=
  batchLoop env summarize items []

deriving instance DecidableEq for Except

/-- An environment whose json.loads always fails to parse. -/
def envPlain : ScrapeEnv :=
  ⟨fun _ => .error "Expecting value: line 1 column 1 (char 0)", id, fun _ => ""⟩

/-- The raw text of the structured-data script in the Jane Doe documents. -/
def ldJaneText : String := "LD-JANE"

/-- json.loads of `ldJaneText`: the spec scenario graph with author Jane Doe. -/
def ldJaneJson : Json :=
  Json.obj [("@graph", Json.arr
    [Json.obj [("@type", Json.str "NewsArticle"),
               ("author", Json.obj [("name", Json.str "Jane Doe")]),
               ("publisher", Json.obj [("name", Json.str "Acme Weekly")]),
               ("datePublished", Json.str "2024-03-01T12:00:00Z")]])]

/-- An environment whose json.loads parses exactly `ldJaneText`. -/
def envJane : ScrapeEnv :=
  ⟨fun s => if s == ldJaneText then .ok ldJaneJson else .error "Expecting value: line 1 column 1 (char 0)",
   id, fun _ => ""⟩

/-- The structured-data script element of the Jane Doe documents. -/
def scriptJane : Node :=
  Node.elem "script" [("type", "application/ld+json")] [Node.text "LD-JANE"]

/-- Spec section 8 PlatformA scenario: structured data plus a body holding
two paragraphs, no byline elements, no clutter. -/
def docScenarioA : Node :=
  Node.elem "[document]" []
    [scriptJane,
     Node.elem "div" [("class", "body markup")]
       [Node.elem "p" [] [Node.text "Hello."],
        Node.elem "p" [] [Node.text "World."]]]

/-- The Jane Doe document extended with a conflicting HTML byline "Bob". -/
def docJaneBob : Node :=
  Node.elem "[document]" []
    [scriptJane,
     Node.elem "div" [("class", "pencraft-card-meta-row")]
       [Node.elem "a" [("class", "pencraft-card-meta-row-owner-name")] [Node.text "Bob"]],
     Node.elem "div" [("class", "body markup")]
       [Node.elem "p" [] [Node.text "Hello."],
        Node.elem "p" [] [Node.text "World."]]]

/-- A Substack page without the div.body.markup container. -/
def docNoBody : Node :=
  Node.elem "[document]" [] [Node.elem "p" [] [Node.text "Hi"]]

/-- A Beehiiv page whose structured-data block is malformed but whose
div.prose body is present. -/
def docBeehiivBadLd : Node :=
  Node.elem "[document]" []
    [Node.elem "script" [("type", "application/ld+json")] [Node.text "not json"],
     Node.elem "div" [("class", "prose")] [Node.elem "p" [] [Node.text "Hi"]]]

/-- A Substack page whose only date source is the post-footer element,
whose text contains a "T". -/
def docFooterDate : Node :=
  Node.elem "[document]" []
    [Node.elem "div" [("aria-label", "Post UFI")]
       [Node.elem "div" [("class", "color-pub-secondary-text-hGQ02T")]
          [Node.text "2024-01-02T03:04"]],
     Node.elem "div" [("class", "body markup")] [Node.elem "p" [] [Node.text "Hi"]]]

/-- A Beehiiv page with no structured data and a canonical URL whose host
first label is "acme". -/
def docBeehiivNoLd : Node :=
  Node.elem "[document]" []
    [Node.elem "link" [("rel", "canonical"), ("href", "https://acme.beehiiv.com/p/x")] [],
     Node.elem "div" [("class", "prose")] [Node.elem "p" [] [Node.text "Hi"]]]

/-- A Substack page whose byline sits inside a div.pullquote clutter element
within the body container. -/
def docBylineInClutter : Node :=
  Node.elem "[document]" []
    [Node.elem "div" [("class", "body markup")]
       [Node.elem "div" [("class", "pullquote")]
          [Node.elem "div" [("class", "pencraft-card-meta-row")]
             [Node.elem "a" [("class", "pencraft-card-meta-row-owner-name")] [Node.text "Eve"]]],
        Node.elem "p" [] [Node.text "Hi"]]]

/-- Spec section 8 PlatformB scenario document. -/
def docScenarioB : Node :=
  Node.elem "[document]" []
    [Node.elem "h1" [] [Node.text "Big News"],
     Node.elem "a" [("href", "https://x.beehiiv.com/authors/js")] [Node.text "J. Smith"],
     Node.elem "div" [("class", "prose")] [Node.elem "li" [] [Node.text "Item one"]]]
/-- Matching a compound selector only inspects the tag and attributes, never
the children. -/
def matchesSimple_children (s : SimpleSel) (t : String) (a : List (String × String))
    (cs cs2 : List Node) : matchesSimple s (.elem t a cs) = matchesSimple s (.elem t a cs2) := rfl

/-- A one-step selector matches independently of the ancestor chain. -/
def selMatch_last (s : SimpleSel) (anc : List Node) (n : Node) :
    selMatch (.last s) anc n = matchesSimple s n := by
  cases anc <;> rfl

/-- Unfolding `selectNode` on an element. -/
def selectNode_elem (sel : Sel) (anc : List Node) (t : String) (a : List (String × String))
    (cs : List Node) : selectNode sel anc (.elem t a cs) =
    (if selMatch sel anc (.elem t a cs) then [Node.elem t a cs] else []) ++
      selectList sel (anc ++ [Node.elem t a cs]) cs := rfl

/-- Unfolding `selectList` on a cons cell. -/
def selectList_cons (sel : Sel) (anc : List Node) (c : Node) (cs : List Node) :
    selectList sel anc (c :: cs) = selectNode sel anc c ++ selectList sel anc cs := rfl

mutual
/-- After removal, a non-matching root has no matching descendant left. -/
def killN (s : SimpleSel) : (n : Node) → (anc : List Node) → matchesSimple s n = false →
    selectNode (.last s) anc (removeMatchingN s n) = []
  | .text _, _, _ => rfl
  | .elem t a cs, anc, h => by
    rw [show removeMatchingN s (.elem t a cs) = .elem t a (removeMatchingL s cs) from rfl]
    rw [selectNode_elem, selMatch_last]
    rw [matchesSimple_children s t a (removeMatchingL s cs) cs, h]
    rw [killL s cs (anc ++ [Node.elem t a (removeMatchingL s cs)])]
    rfl

/-- After removal, no node in the forest matches the removed selector. -/
def killL (s : SimpleSel) : (cs : List Node) → (anc : List Node) →
    selectList (.last s) anc (removeMatchingL s cs) = []
  | [], _ => rfl
  | c :: cs, anc => by
    rw [show removeMatchingL s (c :: cs) =
      (if matchesSimple s c then removeMatchingL s cs
       else removeMatchingN s c :: removeMatchingL s cs) from rfl]
    by_cases hc : matchesSimple s c = true
    · rw [if_pos hc]
      exact killL s cs anc
    · rw [if_neg hc, selectList_cons]
      rw [killN s c anc (Bool.not_eq_true _ ▸ hc), killL s cs anc]
      rfl
end

mutual
/-- Removal of any selector cannot create a match of another (node form). -/
def presN (s s2 : SimpleSel) : (n : Node) → (anc anc2 : List Node) →
    selectNode (.last s) anc n = [] → selectNode (.last s) anc2 (removeMatchingN s2 n) = []
  | .text _, _, _, _ => rfl
  | .elem t a cs, anc, anc2, h => by
    rw [selectNode_elem, selMatch_last] at h
    have hm : matchesSimple s (.elem t a cs) = false := by
      by_cases hx : matchesSimple s (.elem t a cs) = true
      · rw [if_pos hx] at h
        exact absurd h (List.cons_ne_nil _ _)
      · exact Bool.not_eq_true _ ▸ hx
    rw [hm, if_neg (by simp)] at h
    have hrest : selectList (.last s) (anc ++ [Node.elem t a cs]) cs = [] := by
      simpa using h
    rw [show removeMatchingN s2 (.elem t a cs) = .elem t a (removeMatchingL s2 cs) from rfl]
    rw [selectNode_elem, selMatch_last]
    rw [matchesSimple_children s t a (removeMatchingL s2 cs) cs, hm]
    rw [presL s s2 cs (anc ++ [Node.elem t a cs]) _ hrest]
    rfl

/-- Removal of any selector cannot create a match of another (forest form). -/
def presL (s s2 : SimpleSel) : (cs : List Node) → (anc anc2 : List Node) →
    selectList (.last s) anc cs = [] → selectList (.last s) anc2 (removeMatchingL s2 cs) = []
  | [], _, _, _ => rfl
  | c :: cs, anc, anc2, h => by
    rw [selectList_cons] at h
    have hsplit := List.append_eq_nil.mp h
    rw [show removeMatchingL s2 (c :: cs) =
      (if matchesSimple s2 c then removeMatchingL s2 cs
       else removeMatchingN s2 c :: removeMatchingL s2 cs) from rfl]
    by_cases hc : matchesSimple s2 c = true
    · rw [if_pos hc]
      exact presL s s2 cs anc anc2 hsplit.2
    · rw [if_neg hc, selectList_cons]
      rw [presN s s2 c anc anc2 hsplit.1, presL s s2 cs anc anc2 hsplit.2]
      rfl
end

/-- Unfolding `rwNode` on an element. -/
def rwNode_elem (p : Node → Bool) (f : Node → Node) (t : String)
    (a : List (String × String)) (cs : List Node) :
    rwNode p f (.elem t a cs) = (.elem t a (rwList p f cs).1, (rwList p f cs).2) := rfl

/-- Unfolding `rwList` on a cons cell. -/
def rwList_cons (p : Node → Bool) (f : Node → Node) (c : Node) (cs : List Node) :
    rwList p f (c :: cs) =
      (if p c then (f c :: cs, true)
       else if (rwNode p f c).2 then ((rwNode p f c).1 :: cs, true)
       else (c :: (rwList p f cs).1, (rwList p f cs).2)) := rfl

/-- Unfolding `findFirstN` on an element. -/
def findFirstN_elem (p : Node → Bool) (t : String) (a : List (String × String))
    (cs : List Node) : findFirstN p (.elem t a cs) = findFirstL p cs := rfl

/-- Unfolding `findFirstL` on a cons cell. -/
def findFirstL_cons (p : Node → Bool) (c : Node) (cs : List Node) :
    findFirstL p (c :: cs) =
      (if p c then some c
       else match findFirstN p c with
       | some r => some r
       | none => findFirstL p cs) := rfl

mutual
/-- If no strict descendant matches, the rewrite is the identity (node form). -/
def rwNoneN (p : Node → Bool) (f : Node → Node) : (n : Node) →
    findFirstN p n = none → rwNode p f n = (n, false)
  | .text _, _ => rfl
  | .elem t a cs, h => by
    have hcs : rwList p f cs = (cs, false) := rwNoneL p f cs h
    rw [rwNode_elem, hcs]

/-- If no node in the forest matches, the rewrite is the identity. -/
def rwNoneL (p : Node → Bool) (f : Node → Node) : (cs : List Node) →
    findFirstL p cs = none → rwList p f cs = (cs, false)
  | [], _ => rfl
  | c :: cs, h => by
    rw [findFirstL_cons] at h
    by_cases hc : p c = true
    · rw [if_pos hc] at h
      exact absurd h (by simp)
    · rw [if_neg hc] at h
      cases hfc : findFirstN p c with
      | some r =>
        rw [hfc] at h
        exact absurd h (by simp)
      | none =>
        rw [hfc] at h
        have h1 := rwNoneN p f c hfc
        have h2 := rwNoneL p f cs h
        rw [rwList_cons, if_neg hc, h1]
        simp [h2]
end

mutual
/-- Rewriting the first match replaces it by its image, which the same
search then finds first (node form). -/
def rwSomeN (p : Node → Bool) (f : Node → Node)
    (hp : ∀ t a cs cs2, p (.elem t a cs) = p (.elem t a cs2))
    (hpf : ∀ n, p n = true → p (f n) = true) : (n b : Node) →
    findFirstN p n = some b →
    (rwNode p f n).2 = true ∧ findFirstN p (rwNode p f n).1 = some (f b)
  | .text _, _, h => absurd h (by simp [findFirstN])
  | .elem t a cs, b, h => by
    have hcs := rwSomeL p f hp hpf cs b h
    rw [rwNode_elem]
    exact ⟨hcs.1, by rw [findFirstN_elem]; exact hcs.2⟩

/-- Rewriting the first match in a forest (list form). -/
def rwSomeL (p : Node → Bool) (f : Node → Node)
    (hp : ∀ t a cs cs2, p (.elem t a cs) = p (.elem t a cs2))
    (hpf : ∀ n, p n = true → p (f n) = true) : (cs : List Node) → (b : Node) →
    findFirstL p cs = some b →
    (rwList p f cs).2 = true ∧ findFirstL p (rwList p f cs).1 = some (f b)
  | [], _, h => absurd h (by simp [findFirstL])
  | c :: cs, b, h => by
    rw [findFirstL_cons] at h
    by_cases hc : p c = true
    · rw [if_pos hc] at h
      have hb : c = b := by simpa using h
      rw [rwList_cons, if_pos hc]
      refine ⟨rfl, ?_⟩
      rw [findFirstL_cons, if_pos (hpf c hc), hb]
    · rw [if_neg hc] at h
      have hshape : p (rwNode p f c).1 = p c := by
        cases c with
        | text s => rfl
        | elem t2 a2 cs2 => rw [rwNode_elem]; exact hp t2 a2 _ cs2
      cases hfc : findFirstN p c with
      | some r =>
        rw [hfc] at h
        have hb : r = b := by simpa using h
        have hn := rwSomeN p f hp hpf c b (hb ▸ hfc)
        rw [rwList_cons, if_neg hc, if_pos hn.1]
        refine ⟨rfl, ?_⟩
        rw [findFirstL_cons, if_neg (by rw [hshape]; exact hc), hn.2]
      | none =>
        rw [hfc] at h
        have h1 := rwNoneN p f c hfc
        have h2 := rwSomeL p f hp hpf cs b h
        rw [rwList_cons, if_neg hc, h1]
        refine ⟨by simpa using h2.1, ?_⟩
        show findFirstL p (c :: (rwList p f cs).1) = some (f b)
        rw [findFirstL_cons, if_neg hc, hfc]
        exact h2.2
end

mutual
/-- What `findFirstN` returns satisfies the predicate. -/
def findFirstN_sound (p : Node → Bool) : (n b : Node) →
    findFirstN p n = some b → p b = true
  | .text _, _, h => absurd h (by simp [findFirstN])
  | .elem _ _ cs, b, h => findFirstL_sound p cs b h

/-- What `findFirstL` returns satisfies the predicate. -/
def findFirstL_sound (p : Node → Bool) : (cs : List Node) → (b : Node) →
    findFirstL p cs = some b → p b = true
  | [], _, h => absurd h (by simp [findFirstL])
  | c :: cs, b, h => by
    rw [findFirstL_cons] at h
    by_cases hc : p c = true
    · rw [if_pos hc] at h
      have hb : c = b := by simpa using h
      exact hb ▸ hc
    · rw [if_neg hc] at h
      cases hfc : findFirstN p c with
      | some r =>
        rw [hfc] at h
        have hb : r = b := by simpa using h
        exact findFirstN_sound p c b (hb ▸ hfc)
      | none =>
        rw [hfc] at h
        exact findFirstL_sound p cs b h
end

/-- Folding node-level removal over a selector list preserves the element
shell and folds list-level removal over the children. -/
def scrub_foldl_elem : (sels : List SimpleSel) → (t : String) →
    (a : List (String × String)) → (cs : List Node) →
    List.foldl (fun b s => removeMatchingN s b) (Node.elem t a cs) sels =
      Node.elem t a (List.foldl (fun l s => removeMatchingL s l) cs sels)
  | [], _, _, _ => rfl
  | s0 :: sels, t, a, cs => by
    show List.foldl _ (removeMatchingN s0 (Node.elem t a cs)) sels = _
    rw [show removeMatchingN s0 (.elem t a cs) = .elem t a (removeMatchingL s0 cs) from rfl]
    exact scrub_foldl_elem sels t a (removeMatchingL s0 cs)

/-- An emptied selection stays empty under further removal folds. -/
def pres_foldl (s : SimpleSel) : (sels : List SimpleSel) → (cs : List Node) →
    (anc : List Node) → selectList (.last s) anc cs = [] →
    selectList (.last s) anc (List.foldl (fun l s2 => removeMatchingL s2 l) cs sels) = []
  | [], _, _, h => h
  | s0 :: sels, cs, anc, h => by
    show selectList (.last s) anc (List.foldl _ (removeMatchingL s0 cs) sels) = []
    exact pres_foldl s sels (removeMatchingL s0 cs) anc (presL s s0 cs anc anc h)

/-- After folding the whole denylist, no denylist selector matches anywhere. -/
def kill_foldl (s : SimpleSel) : (sels : List SimpleSel) → s ∈ sels →
    (cs : List Node) → (anc : List Node) →
    selectList (.last s) anc (List.foldl (fun l s2 => removeMatchingL s2 l) cs sels) = []
  | [], hmem, _, _ => absurd hmem (List.not_mem_nil s)
  | s0 :: sels, hmem, cs, anc => by
    show selectList (.last s) anc (List.foldl _ (removeMatchingL s0 cs) sels) = []
    by_cases he : s = s0
    · subst he
      exact pres_foldl s sels (removeMatchingL s cs) anc (killL s cs anc)
    · have hmem2 : s ∈ sels := by
        cases List.mem_cons.mp hmem with
        | inl h => exact absurd h he
        | inr h => exact h
      exact kill_foldl s sels hmem2 (removeMatchingL s0 cs) anc

/-- The will-be-scrubbed predicate is insensitive to children. -/
def substackBodyPred_children (t : String) (a : List (String × String)) (cs cs2 : List Node) :
    substackBodyPred (.elem t a cs) = substackBodyPred (.elem t a cs2) := rfl

/-- Scrubbing preserves the body-container predicate. -/
def substackBodyPred_scrub (n : Node) (h : substackBodyPred n = true) :
    substackBodyPred (scrubBody n) = true := by
  cases n with
  | text s => exact absurd h (by simp [substackBodyPred, matchesSimple])
  | elem t a cs =>
    show substackBodyPred (List.foldl _ (Node.elem t a cs) clutterSels) = true
    rw [scrub_foldl_elem clutterSels t a cs]
    rw [substackBodyPred_children t a (List.foldl (fun l s2 => removeMatchingL s2 l) cs clutterSels) cs]
    exact h

/-- A three-element batch whose middle fetch fails (the spec's scenario). -/
def batchItems3 : List BatchItem :=
  [⟨"https://a.substack.com/p/1", .ok docScenarioA⟩,
   ⟨"https://b.substack.com/p/2", .error "Failed to fetch the URL: boom"⟩,
   ⟨"https://acme.beehiiv.com/p/3", .ok docBeehiivNoLd⟩]

/-- A parsed JSON value is "date-clean" when, if it is a string at all, that
string contains no "T" (so it is the before-T truncation of itself). -/
def noTDate (j : Json) : Prop := ∀ s, j = Json.str s → hasT s = false

theorem splitWSAux_length : ∀ (l : List Char) (acc : List Char),
    (splitWSAux l acc).length = tokenStarts l acc.isEmpty + (if acc.isEmpty then 0 else 1) := by
  intro l
  induction l with
  | nil =>
    intro acc
    cases acc <;> simp [splitWSAux, tokenStarts]
  | cons c rest ih =>
    intro acc
    cases hc : isPySpace c <;> cases acc <;>
      (simp [splitWSAux, hc, tokenStarts, ih, List.isEmpty_cons]; try omega)

/-- C7: for every string, word_count is the number of whitespace-delimited
tokens, paragraph_count is the number of (non-overlapping) double-newline
occurrences, and reading_time_minutes equals max(1, round(word_count/200))
with round-half-to-even, hence is at least 1 — also for the empty string. -/
theorem compute_stats_spec (text : String) :
    (compute_stats text).word_count = tokenStarts text.data true ∧
    (compute_stats text).paragraph_count = countNN text.data ∧
    (compute_stats text).reading_time_minutes =
      max 1 (pyRound200 (tokenStarts text.data true)) ∧
    1 ≤ (compute_stats text).reading_time_minutes := by
  have hw : (splitWS text).length = tokenStarts text.data true := by
    rw [splitWS, List.length_map, splitWSAux_length text.data []]
    simp
  refine ⟨hw, rfl, ?_, ?_⟩
  · show max 1 (pyRound200 ((splitWS text).length)) = _
    rw [hw]
  · exact Nat.le_max_left 1 _

theorem batchLoop_map (env : ScrapeEnv) (b : Bool) : ∀ (items : List BatchItem)
    (acc : List BatchEntry),
    batchLoop env b items acc = acc ++ items.map (processItem env b) := by
  intro items
  induction items with
  | nil => intro acc; simp [batchLoop]
  | cons it rest ih =>
    intro acc
    rw [batchLoop, ih]
    simp

/-- C8: the batch results list maps each input URL, in order, to the result
of processing that item alone: its length is the number of inputs, the
i-th entry depends only on the i-th item, and an item whose fetch failed
contributes an entry holding only its URL and the error string. -/
theorem batch_isolation (env : ScrapeEnv) (b : Bool) (items : List BatchItem) :
    batch_article_scrape env b items = items.map (processItem env b) ∧
    (batch_article_scrape env b items).length = items.length ∧
    (∀ i, i < items.length →
      (batch_article_scrape env b items)[i]? = (items[i]?).map (processItem env b)) ∧
    (∀ it : BatchItem, ∀ e, it.fetch = Except.error e →
      processItem env b it = BatchEntry.failure it.url e) := by
  have hmap : batch_article_scrape env b items = items.map (processItem env b) := by
    rw [batch_article_scrape, batchLoop_map]
    simp
  refine ⟨hmap, by rw [hmap]; simp, ?_, ?_⟩
  · intro i _
    rw [hmap]
    exact List.getElem?_map (processItem env b) items i
  · intro it e hfetch
    rw [processItem, hfetch]

/-- Witness for C8: in the spec's three-URL scenario whose middle fetch
fails, the results have length 3 and entry 2 is the URL-plus-error entry. -/
theorem batch_isolation_witness :
    (batch_article_scrape envJane false batchItems3).length = 3 ∧
    (batch_article_scrape envJane false batchItems3)[1]? =
      some (BatchEntry.failure "https://b.substack.com/p/2" "Failed to fetch the URL: boom") ∧
    processItem envJane false ⟨"https://b.substack.com/p/2", .error "Failed to fetch the URL: boom"⟩ =
      BatchEntry.failure "https://b.substack.com/p/2" "Failed to fetch the URL: boom" := by
  have h := batch_isolation envJane false batchItems3
  refine ⟨by rw [h.2.1]; rfl, ?_, ?_⟩
  · rw [h.2.2.1 1 (by decide)]
    decide
  · exact h.2.2.2 ⟨"https://b.substack.com/p/2", .error "Failed to fetch the URL: boom"⟩
      "Failed to fetch the URL: boom" rfl

/-- C2: evaluated at a Substack document whose body container is absent,
extraction does fail on the missing container, but the error message names
the wrong platform: it says "Beehiiv" while Substack is being extracted
(the same wrapped ValueError also carries every other internal fault). -/
theorem substack_error_names_wrong_platform :
    scrape_substack_article envPlain docNoBody =
      .error "Failed to parse Beehiiv article. Error: Main content body not found." ∧
    pyIn "Beehiiv" "Failed to parse Beehiiv article. Error: Main content body not found." = true ∧
    pyIn "Substack" "Failed to parse Beehiiv article. Error: Main content body not found." = false := by
  exact ⟨by decide, by decide, by decide⟩

/-- C1 counterexample: a Substack document whose structured data yields the
non-empty author "Jane Doe" while a conflicting byline element says "Bob"
returns "Bob", not the structured-data author the claim promises. -/
theorem substack_structured_author_loses :
    (substackLd envJane docJaneBob).1 = Json.str "Jane Doe" ∧
    (scrape_substack_article envJane docJaneBob).toOption.map (fun rd => rd.1.author) =
      some (Json.str "Bob") ∧
    Json.str "Bob" ≠ Json.str "Jane Doe" := by
  exact ⟨by decide, by decide, by decide⟩

/-- C1 amended: the byline, publication-name and footer-date element
selectors run unconditionally after the structured-data and meta-tag
strategies; whenever the byline element exists, its text is the returned
author, whatever the structured data said. -/
theorem substack_byline_overrides (env : ScrapeEnv) (soup el : Node) (r : Record) (d : Node)
    (hbyline : selectOne soup bylineSel = some el)
    (hok : scrape_substack_article env soup = .ok (r, d)) :
    r.author = Json.str (textStrip el) := by
  simp only [scrape_substack_article] at hok
  split at hok
  · exact absurd hok (by simp)
  · injection hok with h2
    have hr : r = _ := (congrArg Prod.fst h2).symm
    rw [hr]
    show (substackMetaTriple env soup).1 = Json.str (textStrip el)
    simp only [substackMetaTriple, hbyline]

/-- Witness for the amended C1 at the Jane-Doe-with-byline-Bob document. -/
theorem substack_byline_overrides_witness :
    (scrape_substack_article envJane docJaneBob).toOption.map (fun rd => rd.1.author) =
      some (Json.str (textStrip
        (Node.elem "a" [("class", "pencraft-card-meta-row-owner-name")] [Node.text "Bob"]))) := by
  cases hx : scrape_substack_article envJane docJaneBob with
  | error e =>
    have hsome : (scrape_substack_article envJane docJaneBob).toOption.isSome = true := by decide
    rw [hx] at hsome
    simp [Except.toOption] at hsome
  | ok rd =>
    have h := substack_byline_overrides envJane docJaneBob
      (Node.elem "a" [("class", "pencraft-card-meta-row-owner-name")] [Node.text "Bob"])
      rd.1 rd.2 (by decide) (by rw [hx])
    show some rd.1.author = _
    rw [h]

/-- C3 counterexample: a Beehiiv document with a present body container but
a malformed structured-data block makes the whole extraction fail (the
Beehiiv pipeline has no internal handler around json.loads). -/
theorem beehiiv_malformed_ld_fatal :
    (findFirstN beehiivBodyPred docBeehiivBadLd).isSome = true ∧
    scrape_beehiiv_article envPlain docBeehiivBadLd =
      .error "Failed to parse Beehiiv article. Error: Expecting value: line 1 column 1 (char 0)" := by
  exact ⟨by decide, by decide⟩

/-- C3 amended: on PlatformA a malformed structured-data block is indeed
non-fatal — extraction succeeds whenever the body container is present —
but on PlatformB a json.loads failure aborts the extraction with the
wrapped parse error even when the body container is present. -/
theorem malformed_ld_platform_split :
    (∀ env soup body, findFirstN substackBodyPred soup = some body →
      ∃ rd, scrape_substack_article env soup = .ok rd) ∧
    (∀ env soup tag s e, findFirstN scriptLdPred soup = some tag →
      nodeString tag = some s → env.jsonLoads s = .error e →
      scrape_beehiiv_article env soup = .error (parseErrPre ++ e)) := by
  constructor
  · intro env soup body h
    simp only [scrape_substack_article]
    rw [h]
    exact ⟨_, rfl⟩
  · intro env soup tag s e h1 h2 h3
    simp only [scrape_beehiiv_article, beehiivInner, beehiivLd, h1, h2, h3]

/-- Witness for the amended C3: the Substack half at a body-present document
and the Beehiiv half at the malformed-block document. -/
theorem malformed_ld_platform_split_witness :
    (scrape_substack_article envPlain docFooterDate).toOption.isSome = true ∧
    scrape_beehiiv_article envPlain docBeehiivBadLd =
      .error (parseErrPre ++ "Expecting value: line 1 column 1 (char 0)") := by
  constructor
  · obtain ⟨rd, hrd⟩ := malformed_ld_platform_split.1 envPlain docFooterDate
      (Node.elem "div" [("class", "body markup")] [Node.elem "p" [] [Node.text "Hi"]])
      (by decide)
    rw [hrd]
    rfl
  · exact malformed_ld_platform_split.2 envPlain docBeehiivBadLd
      (Node.elem "script" [("type", "application/ld+json")] [Node.text "not json"])
      "not json" "Expecting value: line 1 column 1 (char 0)" (by decide) (by decide) (by decide)

/-- C5 counterexample: a Beehiiv document with no structured data and a
canonical URL with host acme.beehiiv.com still gets the literal platform
name "beehiiv", not the capitalized first host label "Acme" the claim's
middle strategy would produce. -/
theorem beehiiv_no_host_fallback :
    (scrape_beehiiv_article envPlain docBeehiivNoLd).toOption.map
      (fun r => (r.publication_name, r.extra.canonical_url)) =
      some (Json.str "beehiiv", some "https://acme.beehiiv.com/p/x") ∧
    Json.str "beehiiv" ≠ Json.str "Acme" := by
  exact ⟨by decide, by decide⟩

/-- C5 amended: Beehiiv publication_name is the structured-data publisher
name when the block yields one, else the literal "beehiiv"; there is no
canonical-host fallback — with no script tag the literal always results. -/
theorem beehiiv_publication_default (env : ScrapeEnv) (soup : Node) (r : Record)
    (hscript : findFirstN scriptLdPred soup = none)
    (hok : scrape_beehiiv_article env soup = .ok r) :
    r.publication_name = Json.str "beehiiv" := by
  cases hb : findFirstN beehiivBodyPred soup with
  | none =>
    simp only [scrape_beehiiv_article, beehiivInner, beehiivLd, hscript, hb] at hok
    exact absurd hok (by simp)
  | some body =>
    simp only [scrape_beehiiv_article, beehiivInner, beehiivLd, hscript, hb] at hok
    injection hok with h2
    rw [← h2]

/-- Witness for the amended C5 at the no-structured-data document. -/
theorem beehiiv_publication_default_witness :
    (scrape_beehiiv_article envPlain docBeehiivNoLd).toOption.map
      (fun r => r.publication_name) = some (Json.str "beehiiv") := by
  cases hx : scrape_beehiiv_article envPlain docBeehiivNoLd with
  | error e =>
    have hsome : (scrape_beehiiv_article envPlain docBeehiivNoLd).toOption.isSome = true := by decide
    rw [hx] at hsome
    simp [Except.toOption] at hsome
  | ok r =>
    have h := beehiiv_publication_default envPlain docBeehiivNoLd r (by decide) hx
    show some r.publication_name = _
    rw [h]

/-- C9 counterexample: extracting the same Substack document twice differs —
the first call removes the pullquote clutter that contained the byline, so
the second call no longer finds the byline author "Eve". -/
theorem substack_not_idempotent :
    (extractArticle envPlain .substack docBylineInClutter).toOption.map
      (fun rd => rd.1.author) = some (Json.str "Eve") ∧
    ((extractArticle envPlain .substack docBylineInClutter).toOption.bind
      (fun rd => (extractArticle envPlain .substack rd.2).toOption)).map
      (fun rd => rd.1.author) = some (Json.str "Author not found") := by
  exact ⟨by decide, by decide⟩

/-- C9 amended: the Beehiiv pipeline performs no document mutation, so on
PlatformB a repeated call on the returned document state yields the
identical record; on PlatformA the clutter removal mutates the document
and a second call can differ (see the counterexample). -/
theorem beehiiv_idempotent (env : ScrapeEnv) (soup : Node) (r : Record) (d : Node)
    (h : extractArticle env .beehiiv soup = .ok (r, d)) :
    d = soup ∧ extractArticle env .beehiiv d = .ok (r, d) := by
  have h2 : (match scrape_beehiiv_article env soup with
    | .ok r2 => (Except.ok (r2, soup) : Except String (Record × Node))
    | .error e => .error e) = .ok (r, d) := h
  cases hs : scrape_beehiiv_article env soup with
  | ok r2 =>
    rw [hs] at h2
    injection h2 with h3
    have hr : r2 = r := congrArg Prod.fst h3
    have hd : soup = d := congrArg Prod.snd h3
    refine ⟨hd.symm, ?_⟩
    show (match scrape_beehiiv_article env d with
      | .ok r2 => (Except.ok (r2, d) : Except String (Record × Node))
      | .error e => .error e) = .ok (r, d)
    rw [← hd, hs, hr]
  | error e =>
    rw [hs] at h2
    exact absurd h2 (by simp)

/-- Witness for the amended C9 at the PlatformB scenario document. -/
theorem beehiiv_idempotent_witness :
    (extractArticle envPlain .beehiiv docScenarioB).toOption.map Prod.snd =
      some docScenarioB ∧
    ((extractArticle envPlain .beehiiv docScenarioB).toOption.bind
      (fun rd => (extractArticle envPlain .beehiiv rd.2).toOption)) =
      (extractArticle envPlain .beehiiv docScenarioB).toOption := by
  cases hx : extractArticle envPlain .beehiiv docScenarioB with
  | error e =>
    have hsome : (extractArticle envPlain .beehiiv docScenarioB).toOption.isSome = true := by decide
    rw [hx] at hsome
    simp [Except.toOption] at hsome
  | ok rd =>
    have h := beehiiv_idempotent envPlain docScenarioB rd.1 rd.2 (by rw [hx])
    constructor
    · show some rd.2 = some docScenarioB
      rw [h.1]
    · show (some rd).bind (fun rd => (extractArticle envPlain .beehiiv rd.2).toOption) = some rd
      show (extractArticle envPlain .beehiiv rd.2).toOption = some rd
      rw [h.2]
      rfl

theorem pairedNL_cons_ne (c : Char) (l : List Char) (h : ¬ c = '\n') :
    pairedNL (c :: l) = pairedNL l := by
  cases l <;> simp [pairedNL, h]

theorem noNL_pairedNL : ∀ l : List Char, (∀ c ∈ l, ¬ c = '\n') → pairedNL l = true := by
  intro l
  induction l with
  | nil => intro _; rfl
  | cons c rest ih =>
    intro h
    rw [pairedNL_cons_ne c rest (h c (by simp))]
    exact ih (fun x hx => h x (by simp [hx]))

theorem pairedNL_append_left : ∀ xs ys : List Char, (∀ c ∈ xs, ¬ c = '\n') →
    pairedNL (xs ++ ys) = pairedNL ys := by
  intro xs
  induction xs with
  | nil => intro ys _; rfl
  | cons c rest ih =>
    intro ys h
    rw [List.cons_append, pairedNL_cons_ne c _ (h c (by simp))]
    exact ih ys (fun x hx => h x (by simp [hx]))

theorem pairedNL_nn (c : Char) (l : List Char) (h : ¬ c = '\n') :
    pairedNL ('\n' :: '\n' :: c :: l) = pairedNL (c :: l) := by
  simp [pairedNL, h]

theorem joinNN_cons₂ (b b2 : String) (bs : List String) :
    joinNN (b :: b2 :: bs) = b ++ "\n\n" ++ joinNN (b2 :: bs) := rfl

theorem joinNN_data_head : ∀ (b2 : String) (bs : List String), ∃ tl,
    (joinNN (b2 :: bs)).data = b2.data ++ tl := by
  intro b2 bs
  cases bs with
  | nil => exact ⟨[], by simp [joinNN]⟩
  | cons b3 rest =>
    refine ⟨("\n\n" : String).data ++ (joinNN (b3 :: rest)).data, ?_⟩
    rw [joinNN_cons₂, String.data_append, String.data_append, List.append_assoc]

theorem pairedNL_joinNN : ∀ bs : List String,
    (∀ b ∈ bs, b ≠ "" ∧ ∀ c ∈ b.data, ¬ c = '\n') → pairedNL (joinNN bs).data = true := by
  intro bs
  induction bs with
  | nil => intro _; rfl
  | cons b rest ih =>
    intro h
    cases rest with
    | nil => exact noNL_pairedNL b.data ((h b (by simp)).2)
    | cons b2 rest2 =>
      rw [joinNN_cons₂, String.data_append, String.data_append, List.append_assoc]
      rw [pairedNL_append_left b.data _ ((h b (by simp)).2)]
      obtain ⟨tl, htl⟩ := joinNN_data_head b2 rest2
      have hb2 := h b2 (by simp)
      obtain ⟨c0, l2, hb2d⟩ : ∃ c0 l2, b2.data = c0 :: l2 := by
        cases hd : b2.data with
        | nil =>
          exact absurd (String.ext (show b2.data = ("" : String).data by simpa using hd)) hb2.1
        | cons c0 l2 => exact ⟨c0, l2, rfl⟩
      have hc0 : ¬ c0 = '\n' := hb2.2 c0 (by rw [hb2d]; exact List.mem_cons_self _ _)
      rw [htl, hb2d]
      show pairedNL ('\n' :: '\n' :: (c0 :: (l2 ++ tl))) = true
      rw [pairedNL_nn c0 (l2 ++ tl) hc0]
      have hfold : c0 :: (l2 ++ tl) = (joinNN (b2 :: rest2)).data := by
        rw [htl, hb2d]
        rfl
      rw [hfold]
      exact ih (fun x hx => h x (by simp [hx]))

theorem cleanBlocks_prop (container : Node) (sel : Sel) :
    ∀ b ∈ cleanBlocks container sel, b ≠ "" ∧ ∀ c ∈ b.data, ¬ c = '\n' := by
  intro b hb
  obtain ⟨el, hel, hmap⟩ := List.mem_map.mp hb
  have hfil := (List.mem_filter.mp hel).2
  have htx : ¬ textStrip el = "" := by
    intro he
    rw [he] at hfil
    simp at hfil
  subst hmap
  constructor
  · intro he
    apply htx
    have hd := congrArg String.data he
    simp only [stripNL] at hd
    have hlen := congrArg List.length hd
    simp at hlen
    have hnil : (textStrip el).data = [] := List.eq_nil_of_length_eq_zero hlen
    exact String.ext (show (textStrip el).data = ("" : String).data by simpa using hnil)
  · intro c hc
    obtain ⟨c0, _, hfc⟩ := List.mem_map.mp (by simpa [stripNL] using hc)
    intro he
    rw [← hfc] at he
    by_cases h0 : c0 = '\n'
    · rw [h0] at he
      simp at he
    · rw [if_neg (by simpa using h0)] at he
      exact h0 he

/-- C6: for every successful extraction on either platform, full_text is
the double-newline join of nonempty newline-free blocks (each block's
internal newlines were replaced by spaces, empty blocks dropped), so every
maximal newline run in full_text has length exactly two — no bare single
newline occurs, and the empty string results when no block survives. -/
theorem full_text_block_structure :
    (∀ env soup r d, scrape_substack_article env soup = .ok (r, d) →
      pairedNL r.full_text.data = true ∧
      ∃ bs : List String, (∀ b ∈ bs, b ≠ "" ∧ ∀ c ∈ b.data, ¬ c = '\n') ∧
        r.full_text = joinNN bs) ∧
    (∀ env soup r, scrape_beehiiv_article env soup = .ok r →
      pairedNL r.full_text.data = true ∧
      ∃ bs : List String, (∀ b ∈ bs, b ≠ "" ∧ ∀ c ∈ b.data, ¬ c = '\n') ∧
        r.full_text = joinNN bs) := by
  constructor
  · intro env soup r d hok
    simp only [scrape_substack_article] at hok
    split at hok
    · exact absurd hok (by simp)
    · rename_i body hbody
      injection hok with h2
      have hr : r = _ := (congrArg Prod.fst h2).symm
      have hft : r.full_text = joinNN (cleanBlocks (scrubBody body) substackTextSel) := by rw [hr]
      refine ⟨?_, cleanBlocks (scrubBody body) substackTextSel, cleanBlocks_prop _ _, hft⟩
      rw [hft]
      exact pairedNL_joinNN _ (cleanBlocks_prop _ _)
  · intro env soup r hok
    simp only [scrape_beehiiv_article] at hok
    split at hok
    · rename_i r2 heq
      injection hok with h2
      subst h2
      simp only [beehiivInner] at heq
      split at heq
      · exact absurd heq (by simp)
      · split at heq
        · exact absurd heq (by simp)
        · rename_i body hbody
          injection heq with h3
          have hr : r2 = _ := h3.symm
          have hft : r2.full_text = joinNN (cleanBlocks body beehiivTextSel) := by rw [hr]
          refine ⟨?_, cleanBlocks body beehiivTextSel, cleanBlocks_prop _ _, hft⟩
          rw [hft]
          exact pairedNL_joinNN _ (cleanBlocks_prop _ _)
    · exact absurd hok (by simp)

/-- Witness for C6 at the PlatformA scenario document. -/
theorem full_text_block_structure_witness :
    (scrape_substack_article envJane docScenarioA).toOption.map
      (fun rd => pairedNL rd.1.full_text.data) = some true := by
  cases hx : scrape_substack_article envJane docScenarioA with
  | error e =>
    have hsome : (scrape_substack_article envJane docScenarioA).toOption.isSome = true := by decide
    rw [hx] at hsome
    simp [Except.toOption] at hsome
  | ok rd =>
    have h := full_text_block_structure.1 envJane docScenarioA rd.1 rd.2 (by rw [hx])
    show some (pairedNL rd.1.full_text.data) = some true
    rw [h.1]

theorem takeWhile_noT : ∀ l : List Char,
    (l.takeWhile (fun c => c != 'T')).any (fun c => c == 'T') = false := by
  intro l
  induction l with
  | nil => rfl
  | cons c rest ih =>
    by_cases hc : c = 'T'
    · subst hc
      simp [List.takeWhile_cons]
    · simp [List.takeWhile_cons, hc, ih]

theorem beforeT_noT (s : String) : hasT (beforeT s) = false := takeWhile_noT s.data

theorem noTDate_null : noTDate Json.null := fun _ h => Json.noConfusion h

theorem noTDate_beforeT (s : String) : noTDate (Json.str (beforeT s)) := by
  intro s2 h
  injection h with h2
  rw [← h2]
  exact beforeT_noT s

theorem noTDate_falsy (d : Json) (h : pyTruthy d = false) : noTDate d := by
  intro s hs
  subst hs
  have h2 : s.isEmpty = true := by simpa [pyTruthy] using h
  rw [(String.isEmpty_iff s).mp h2]
  rfl

theorem ldItemFields_date (item a p d : Json) (h : noTDate d) :
    noTDate (ldItemFields item a p d).2.2 := by
  simp only [ldItemFields]
  split
  · exact h
  · split
    · exact h
    · split
      · exact h
      · split
        · exact h
        · split
          · exact h
          · split
            · split
              · exact noTDate_beforeT _
              · rename_i hne
                intro s hs
                exact (hne s hs).elim
            · rename_i hfalse
              exact noTDate_falsy _ (by simpa using hfalse)

theorem substackLdLoop_date : ∀ (items : List Json) (a p d : Json), noTDate d →
    noTDate (substackLdLoop a p d items).2.2 := by
  intro items
  induction items with
  | nil => intro a p d h; exact h
  | cons item rest ih =>
    intro a p d h
    simp only [substackLdLoop]
    split
    · exact h
    · split
      · exact ldItemFields_date _ _ _ _ h
      · exact ih a p d h

theorem substackLd_date (env : ScrapeEnv) (soup : Node) : noTDate (substackLd env soup).2.2 := by
  simp only [substackLd]
  repeat' split
  all_goals first
    | exact noTDate_null
    | exact substackLdLoop_date _ _ _ _ noTDate_null

theorem substackMetaTriple_date (env : ScrapeEnv) (soup : Node)
    (hfoot : selectOne soup dateFooterSel = none) :
    noTDate (substackMetaTriple env soup).2.2 := by
  simp only [substackMetaTriple, hfoot]
  split
  · exact substackLd_date env soup
  · split
    · exact noTDate_beforeT _
    · exact substackLd_date env soup

theorem beehiivLd_date (env : ScrapeEnv) (soup : Node) (q : Json × Json × Json × Json)
    (h : beehiivLd env soup = .ok q) : noTDate q.2.2.2 := by
  simp only [beehiivLd] at h
  split at h
  · injection h with h2
    rw [← h2]
    exact noTDate_null
  · split at h
    · exact absurd h (by simp)
    · split at h
      · exact absurd h (by simp)
      · split at h
        · exact absurd h (by simp)
        · split at h
          · exact absurd h (by simp)
          · split at h
            · exact absurd h (by simp)
            · split at h
              · exact absurd h (by simp)
              · split at h
                · exact absurd h (by simp)
                · split at h
                  · exact absurd h (by simp)
                  · split at h
                    · split at h
                      · injection h with h2
                        rw [← h2]
                        exact noTDate_beforeT _
                      · exact absurd h (by simp)
                    · rename_i hfalse
                      injection h with h2
                      rw [← h2]
                      exact noTDate_falsy _ (by simpa using hfalse)

/-- C4 amended: the date-only truncation holds for the structured-data and
meta-tag strategies on both platforms (and Beehiiv has only the structured
strategy), but the Substack footer-date element's text is returned
verbatim; whenever that footer element is absent, any string
publication_date contains no "T". -/
theorem date_truncation_amended :
    (∀ env soup r d, scrape_substack_article env soup = .ok (r, d) →
      selectOne soup dateFooterSel = none →
      ∀ s, r.publication_date = Json.str s → hasT s = false) ∧
    (∀ env soup r, scrape_beehiiv_article env soup = .ok r →
      ∀ s, r.publication_date = Json.str s → hasT s = false) := by
  constructor
  · intro env soup r d hok hfoot s hs
    simp only [scrape_substack_article] at hok
    split at hok
    · exact absurd hok (by simp)
    · injection hok with h2
      have hr : r = _ := (congrArg Prod.fst h2).symm
      have hdate : r.publication_date = (substackMetaTriple env soup).2.2 := by rw [hr]
      exact substackMetaTriple_date env soup hfoot s (hdate ▸ hs)
  · intro env soup r hok s hs
    simp only [scrape_beehiiv_article] at hok
    split at hok
    · rename_i r2 heq
      injection hok with h2
      subst h2
      simp only [beehiivInner] at heq
      split at heq
      · exact absurd heq (by simp)
      · rename_i q hq
        split at heq
        · exact absurd heq (by simp)
        · injection heq with h3
          have hr : r2 = _ := h3.symm
          have hdate : r2.publication_date = q.2.2.2 := by rw [hr]
          exact beehiivLd_date env soup q hq s (hdate ▸ hs)
    · exact absurd hok (by simp)

/-- Witness for the amended C4 at the PlatformA scenario document, whose
footer element is absent and whose date resolves from structured data. -/
theorem date_truncation_amended_witness :
    (scrape_substack_article envJane docScenarioA).toOption.map
      (fun rd => rd.1.publication_date) = some (Json.str "2024-03-01") ∧
    hasT "2024-03-01" = false := by
  refine ⟨by decide, ?_⟩
  cases hx : scrape_substack_article envJane docScenarioA with
  | error e =>
    have hsome : (scrape_substack_article envJane docScenarioA).toOption.isSome = true := by decide
    rw [hx] at hsome
    simp [Except.toOption] at hsome
  | ok rd =>
    have hdate : rd.1.publication_date = Json.str "2024-03-01" := by
      have hmap : (scrape_substack_article envJane docScenarioA).toOption.map
          (fun rd => rd.1.publication_date) = some (Json.str "2024-03-01") := by decide
      rw [hx] at hmap
      exact Option.some.inj hmap
    exact date_truncation_amended.1 envJane docScenarioA rd.1 rd.2 (by rw [hx])
      (by decide) "2024-03-01" hdate

/-- C4 counterexample: the Substack footer-date strategy returns the
element text verbatim — here a timestamp containing "T" — which is not the
portion before the first "T". -/
theorem substack_footer_date_not_truncated :
    (scrape_substack_article envPlain docFooterDate).toOption.map
      (fun rd => rd.1.publication_date) = some (Json.str "2024-01-02T03:04") ∧
    hasT "2024-01-02T03:04" = true ∧
    beforeT "2024-01-02T03:04" ≠ "2024-01-02T03:04" := by
  exact ⟨by decide, by decide, by decide⟩

/-- C10: PlatformA extraction returns the mutated document: the body
container is replaced in place by its scrubbed version, a repeated body
query now sees the scrubbed container, and no clutter-denylist selector
matches anywhere inside it any more. -/
theorem substack_clutter_removed (env : ScrapeEnv) (soup body : Node) (r : Record) (d : Node)
    (hbody : findFirstN substackBodyPred soup = some body)
    (hok : extractArticle env .substack soup = .ok (r, d)) :
    d = (rwNode substackBodyPred scrubBody soup).1 ∧
    findFirstN substackBodyPred d = some (scrubBody body) ∧
    ∀ s ∈ clutterSels, select (scrubBody body) (.last s) = [] := by
  have hok2 : scrape_substack_article env soup = .ok (r, d) := hok
  simp only [scrape_substack_article, hbody] at hok2
  injection hok2 with h2
  have hd : d = (rwNode substackBodyPred scrubBody soup).1 := (congrArg Prod.snd h2).symm
  refine ⟨hd, ?_, ?_⟩
  · rw [hd]
    exact (rwSomeN substackBodyPred scrubBody substackBodyPred_children
      substackBodyPred_scrub soup body hbody).2
  · intro s hs
    have hpb : substackBodyPred body = true := findFirstN_sound _ _ _ hbody
    cases body with
    | text t => exact absurd hpb (by simp [substackBodyPred, matchesSimple])
    | elem t a cs =>
      show select (scrubBody (Node.elem t a cs)) (Sel.last s) = []
      rw [show scrubBody (Node.elem t a cs) =
        List.foldl (fun b s2 => removeMatchingN s2 b) (Node.elem t a cs) clutterSels from rfl]
      rw [scrub_foldl_elem clutterSels t a cs]
      exact kill_foldl s clutterSels hs cs
        [Node.elem t a (List.foldl (fun l s2 => removeMatchingL s2 l) cs clutterSels)]

/-- Witness for C10 at the byline-in-pullquote document. -/
theorem substack_clutter_removed_witness :
    select (scrubBody (Node.elem "div" [("class", "body markup")]
      [Node.elem "div" [("class", "pullquote")]
        [Node.elem "div" [("class", "pencraft-card-meta-row")]
          [Node.elem "a" [("class", "pencraft-card-meta-row-owner-name")] [Node.text "Eve"]]],
       Node.elem "p" [] [Node.text "Hi"]]))
      (Sel.last ⟨["div"], ["pullquote"], [], []⟩) = [] ∧
    (extractArticle envPlain .substack docBylineInClutter).toOption.map Prod.snd =
      some ((rwNode substackBodyPred scrubBody docBylineInClutter).1) := by
  cases hx : extractArticle envPlain .substack docBylineInClutter with
  | error e =>
    have hsome : (extractArticle envPlain .substack docBylineInClutter).toOption.isSome = true := by
      decide
    rw [hx] at hsome
    simp [Except.toOption] at hsome
  | ok rd =>
    have h := substack_clutter_removed envPlain docBylineInClutter
      (Node.elem "div" [("class", "body markup")]
        [Node.elem "div" [("class", "pullquote")]
          [Node.elem "div" [("class", "pencraft-card-meta-row")]
            [Node.elem "a" [("class", "pencraft-card-meta-row-owner-name")] [Node.text "Eve"]]],
         Node.elem "p" [] [Node.text "Hi"]])
      rd.1 rd.2 (by decide) (by rw [hx])
    refine ⟨h.2.2 ⟨["div"], ["pullquote"], [], []⟩ (by decide), ?_⟩
    show some rd.2 = _
    rw [h.1]
